import Mathlib

/-!
Shallow embedding of `provider/oauth2/backends.py` from
Memrise/django-oauth2-provider, together with the collaborators the
backends use.  Python runtime behaviour (exceptions, `str.split`,
`base64.standard_b64decode`, `bytes.decode('utf-8')`) is embedded
explicitly; fallible steps return `Except PyError`.

Collaborators that are part of this repository but whose files are not
available (`provider/oauth2/forms.py`, `provider/oauth2/models.py`,
`provider/utils.py`) are modelled from the specification and marked as
such in their doc comments.
-/

/-- Python exceptions relevant to `backends.py`.  In CPython,
`binascii.Error` and `UnicodeDecodeError` are both subclasses of
`ValueError`; `AttributeError` is not. -/
inductive PyError
  | valueError
  | binasciiError
  | unicodeDecodeError
  | attributeError
  deriving DecidableEq

deriving instance DecidableEq for Except

/-- Whether an exception is caught by `except ValueError`. -/
def PyError.isValueError : PyError → Bool
  | .valueError => true
  | .binasciiError => true
  | .unicodeDecodeError => true
  | .attributeError => false

/-- Python `str.split(sep)` for a one-character separator, on the
character list: splits at every occurrence of the separator, keeping
empty pieces (`''.split(' ') = ['']`, `'a  b'.split(' ') = ['a','','b']`). -/
def pySplitCh (sep : Char) : List Char → List (List Char)
  | [] => [[]]
  | c :: rest =>
    if c = sep then
      [] :: pySplitCh sep rest
    else
      match pySplitCh sep rest with
      | [] => [[c]]
      | g :: gs => (c :: g) :: gs

/-- Python `s.split(sep)` on strings. -/
def pySplit (s : String) (sep : Char) : List String :=
  (pySplitCh sep s.data).map String.mk

/-- Python `dict.get(k)` on an association list (first binding wins). -/
def dictGet (d : List (String × String)) (k : String) : Option String :=
  (d.find? (fun p => p.1 == k)).map Prod.snd

/-- `Client.client_type`: `confidential` or `public`. -/
inductive ClientType
  | confidential
  | public
  deriving DecidableEq

/-- A registered OAuth2 client, as held by the Client Store. -/
structure Client where
  client_id : String
  client_secret : String
  client_type : ClientType
  deriving DecidableEq

/-- The request representation consumed by the backends: `META` holds the
headers (key `HTTP_AUTHORIZATION` carries the Authorization header) and
`REQUEST` is the merged body/query parameter mapping. -/
structure Request where
  META : List (String × String)
  REQUEST : List (String × String)
  deriving DecidableEq

/-- An issued access token record: token string, owning client, expiry
timestamp (`expires`). -/
structure AccessToken where
  token : String
  client : Client
  expires : Int
  deriving DecidableEq

/-- Modelled from the spec: the Client Store interface
`find_client(client_id) -> Client | none` (section 6); returns the
registered client with the given identifier, or none. -/
def find_client (clients : List Client) (client_id : String) : Option Client :=
  clients.find? (fun c => c.client_id == client_id)

/-! ### base64: `base64.standard_b64decode` (CPython, non-strict mode) -/

/-- Value of a character in the standard base64 alphabet, none for
characters outside the alphabet. -/
def b64CharVal (c : Char) : Option Nat :=
  if 'A' ≤ c ∧ c ≤ 'Z' then some (c.toNat - 65)
  else if 'a' ≤ c ∧ c ≤ 'z' then some (c.toNat - 97 + 26)
  else if '0' ≤ c ∧ c ≤ '9' then some (c.toNat - 48 + 52)
  else if c = '+' then some 62
  else if c = '/' then some 63
  else none

/-- The standard base64 alphabet character for a 6-bit value. -/
def b64EncChar (v : Nat) : Char :=
  if v < 26 then Char.ofNat (65 + v)
  else if v < 52 then Char.ofNat (97 + (v - 26))
  else if v < 62 then Char.ofNat (48 + (v - 52))
  else if v = 62 then '+'
  else '/'

/-- CPython `binascii.a2b_base64` in non-strict mode (what
`base64.standard_b64decode` calls): characters outside the alphabet are
discarded; a completed padding sequence ends the data; a leftover
quad position of 1, 2 or 3 at the end raises `binascii.Error`.
State: remaining characters, quad position (0-3), leftover bits, count of
pending pad characters, accumulated output bytes. -/
def a2bLoop : List Char → Nat → Nat → Nat → List Nat → Except PyError (List Nat)
  | [], quad, _, _, acc =>
    if quad = 0 then .ok acc else .error .binasciiError
  | c :: rest, quad, left, pads, acc =>
    if c = '=' then
      if 2 ≤ quad ∧ 4 ≤ quad + (pads + 1) then .ok acc
      else if 2 ≤ quad then a2bLoop rest quad left (pads + 1) acc
      else a2bLoop rest quad left pads acc
    else
      match b64CharVal c with
      | none => a2bLoop rest quad left pads acc
      | some d =>
        match quad with
        | 0 => a2bLoop rest 1 d 0 acc
        | 1 => a2bLoop rest 2 (d % 16) 0 (acc ++ [left * 4 + d / 16])
        | 2 => a2bLoop rest 3 (d % 4) 0 (acc ++ [left * 16 + d / 4])
        | _ => a2bLoop rest 0 0 0 (acc ++ [left * 64 + d])

/-- Python 3 `base64.standard_b64decode` on a `str` argument: the string
is first ASCII-encoded (non-ASCII raises `ValueError`), then decoded by
`binascii.a2b_base64`. -/
def standard_b64decode (s : String) : Except PyError (List Nat) :=
  if s.data.all (fun c => c.toNat < 128) then a2bLoop s.data 0 0 0 []
  else .error .valueError

/-- Canonical base64 encoding of a byte list (`base64.standard_b64encode`),
used to state properties about well-formed headers. -/
def b64encodeBytes : List Nat → List Char
  | [] => []
  | [b1] => [b64EncChar (b1 / 4), b64EncChar (b1 % 4 * 16), '=', '=']
  | [b1, b2] => [b64EncChar (b1 / 4), b64EncChar (b1 % 4 * 16 + b2 / 16),
      b64EncChar (b2 % 16 * 4), '=']
  | b1 :: b2 :: b3 :: rest =>
    b64EncChar (b1 / 4) :: b64EncChar (b1 % 4 * 16 + b2 / 16) ::
      b64EncChar (b2 % 16 * 4 + b3 / 64) :: b64EncChar (b3 % 64) ::
      b64encodeBytes rest

/-- Canonical base64 encoding as a string. -/
def b64encode (bs : List Nat) : String :=
  String.mk (b64encodeBytes bs)

/-! ### UTF-8: `bytes.decode('utf-8')` (strict) and encoding -/

/-- UTF-8 encoding of a single code point. -/
def utf8EncodeChar (c : Char) : List Nat :=
  let n := c.toNat
  if n < 0x80 then [n]
  else if n < 0x800 then [0xC0 + n / 64, 0x80 + n % 64]
  else if n < 0x10000 then
    [0xE0 + n / 4096, 0x80 + n / 64 % 64, 0x80 + n % 64]
  else
    [0xF0 + n / 0x40000, 0x80 + n / 4096 % 64, 0x80 + n / 64 % 64, 0x80 + n % 64]

/-- UTF-8 encoding of a string. -/
def utf8Encode (s : String) : List Nat :=
  (s.data.map utf8EncodeChar).flatten

/-- Strict UTF-8 decoding as the standard byte-at-a-time state machine
(Unicode table 3-7): rejects stray continuation bytes, overlong
encodings, surrogates and code points above `0x10FFFF`, as Python's
`bytes.decode('utf-8')` does.  State: remaining bytes, number of pending
continuation bytes, accumulated code-point value, inclusive bounds for
the next continuation byte, decoded characters so far (reversed). -/
def utf8Run : List Nat → Nat → Nat → Nat → Nat → List Char → Option (List Char)
  | [], need, _, _, _, acc => if need = 0 then some acc.reverse else none
  | b :: rest, 0, _, _, _, acc =>
    if b < 0x80 then utf8Run rest 0 0 0 0 (Char.ofNat b :: acc)
    else if b < 0xC2 then none
    else if b < 0xE0 then utf8Run rest 1 (b - 0xC0) 0x80 0xBF acc
    else if b = 0xE0 then utf8Run rest 2 0 0xA0 0xBF acc
    else if b = 0xED then utf8Run rest 2 13 0x80 0x9F acc
    else if b < 0xF0 then utf8Run rest 2 (b - 0xE0) 0x80 0xBF acc
    else if b = 0xF0 then utf8Run rest 3 0 0x90 0xBF acc
    else if b = 0xF4 then utf8Run rest 3 4 0x80 0x8F acc
    else if b < 0xF4 then utf8Run rest 3 (b - 0xF0) 0x80 0xBF acc
    else none
  | b :: rest, 1, val, lo, hi, acc =>
    if lo ≤ b ∧ b ≤ hi then
      utf8Run rest 0 0 0 0 (Char.ofNat (val * 64 + (b - 0x80)) :: acc)
    else none
  | b :: rest, need + 2, val, lo, hi, acc =>
    if lo ≤ b ∧ b ≤ hi then
      utf8Run rest (need + 1) (val * 64 + (b - 0x80)) 0x80 0xBF acc
    else none

/-- `bytes.decode('utf-8')`: some string on success, none for a
`UnicodeDecodeError`. -/
def utf8Decode (bs : List Nat) : Option String :=
  (utf8Run bs 0 0 0 0 []).map String.mk

/-! ### The forms (collaborators not present in `src/`) -/

/-- Modelled from the spec: `ClientAuthForm` (from
`provider/oauth2/forms.py`, not in `src/`).  Validates a
`{client_id, client_secret}` credential mapping: requires a present,
non-empty `client_id` (section 3 invariant: "a Credentials value with an
empty or absent client identifier is never valid"), looks the client up
in the Client Store, and succeeds only if the stored secret equals the
supplied secret exactly; an absent `client_secret` is treated as the
empty secret (section 4.2). -/
def ClientAuthForm (clients : List Client) (data : List (String × String)) :
    Option Client :=
  match dictGet data "client_id" with
  | none => none
  | some cid =>
    if cid = "" then none
    else
      match find_client clients cid with
      | none => none
      | some c =>
        if c.client_secret = (dictGet data "client_secret").getD "" then some c
        else none

/-- Modelled from the spec: `PublicPasswordGrantForm` (from
`provider/oauth2/forms.py`, not in `src/`).  Succeeds only when the
request's `grant_type` parameter equals `password`, a non-empty
`client_id` is present, the client exists in the Client Store, and its
type is exactly `public`; no secret comparison is performed
(section 4.2). -/
def PublicPasswordGrantForm (clients : List Client)
    (data : List (String × String)) : Option Client :=
  if dictGet data "grant_type" = some "password" then
    match dictGet data "client_id" with
    | none => none
    | some cid =>
      if cid = "" then none
      else
        match find_client clients cid with
        | none => none
        | some c => if c.client_type = ClientType.public then some c else none
  else none

/-! ### The backends (`provider/oauth2/backends.py`) -/

/-- Body of the `try:` block of `BasicClientBackend.authenticate`
(lines 32-50): split the header at spaces into scheme and payload,
base64-decode the payload, UTF-8-decode the bytes (a
`UnicodeDecodeError` is caught inside and yields `None`), split the text
at every `:` into `client_id` and `client_secret`, and validate through
`ClientAuthForm`.  Unpacking a split of length other than two raises
`ValueError`. -/
def basicTryBody (clients : List Client) (auth : String) :
    Except PyError (Option Client) :=
  match pySplit auth ' ' with
  | [_scheme, base64_str] =>
    match standard_b64decode base64_str with
    | .error e => .error e
    | .ok base64_bytes =>
      match utf8Decode base64_bytes with
      | none => .ok none
      | some s =>
        match pySplit s ':' with
        | [client_id, client_secret] =>
          .ok (ClientAuthForm clients
            [("client_id", client_id), ("client_secret", client_secret)])
        | _ => .error .valueError
  | _ => .error .valueError

/-- `BasicClientBackend.authenticate` (backends.py lines 26-54): reads
`request.META.get('HTTP_AUTHORIZATION')` (raising `AttributeError` when
`request` is `None`), returns `None` for an absent or empty header, and
otherwise runs the parsing body under `except ValueError: return None`. -/
def BasicClientBackend.authenticate (clients : List Client)
    (request : Option Request) : Except PyError (Option Client) :=
  match request with
  | none => .error .attributeError
  | some req =>
    match dictGet req.META "HTTP_AUTHORIZATION" with
    | none => .ok none
    | some auth =>
      if auth = "" then .ok none
      else
        match basicTryBody clients auth with
        | .ok r => .ok r
        | .error e => if e.isValueError then .ok none else .error e

/-- `RequestParamsClientBackend.authenticate` (backends.py lines 62-71):
returns `None` for a missing request, otherwise validates the merged
request parameters through `ClientAuthForm`. -/
def RequestParamsClientBackend.authenticate (clients : List Client)
    (request : Option Request) : Option Client :=
  match request with
  | none => none
  | some req => ClientAuthForm clients req.REQUEST

/-- `PublicPasswordBackend.authenticate` (backends.py lines 83-92):
returns `None` for a missing request, otherwise validates the merged
request parameters through `PublicPasswordGrantForm`. -/
def PublicPasswordBackend.authenticate (clients : List Client)
    (request : Option Request) : Option Client :=
  match request with
  | none => none
  | some req => PublicPasswordGrantForm clients req.REQUEST

/-- `AccessTokenBackend.authenticate` (backends.py lines 100-105),
with the store and clock modelled from the spec: the AccessToken Store
interface `find_access_token(token, client, not_expired_as_of=now)`
(section 6, `provider/oauth2/models.py` and `provider/utils.py` not in
`src/`).  Returns the record matching the exact token string and exact
client whose `expires` is strictly greater than `now`; when no such
record exists the `AccessToken.DoesNotExist` is caught and `None` is
returned. -/
def AccessTokenBackend.authenticate (tokens : List AccessToken) (now : Int)
    (access_token : String) (client : Client) : Option AccessToken :=
  tokens.find? (fun a =>
    decide (a.token = access_token ∧ now < a.expires ∧ a.client = client))

/-- Modelled from the spec: the Strategy Chain (section 4.3, implemented
by framework configuration outside this repository): tries the
Basic-header strategy, then the request-parameter strategy, then the
public-password-grant strategy, returning the first non-`None` result. -/
def authenticateChain (clients : List Client) (req : Request) : Option Client :=
  match BasicClientBackend.authenticate clients (some req) with
  | .ok (some c) => some c
  | _ =>
    match RequestParamsClientBackend.authenticate clients (some req) with
    | some c => some c
    | none => PublicPasswordBackend.authenticate clients (some req)

/-! ### Lemmas about `pySplit` -/

theorem pySplitCh_ne_nil (sep : Char) (l : List Char) : pySplitCh sep l ≠ [] := by
  cases l with
  | nil => simp [pySplitCh]
  | cons c rest =>
    rw [pySplitCh]
    split
    · simp
    · split <;> simp

theorem pySplitCh_length (sep : Char) (l : List Char) :
    (pySplitCh sep l).length = l.count sep + 1 := by
  induction l with
  | nil => simp [pySplitCh]
  | cons c rest ih =>
    rw [pySplitCh]
    by_cases h : c = sep
    · simp [h, List.count_cons, ih]
    · cases hr : pySplitCh sep rest with
      | nil => exact absurd hr (pySplitCh_ne_nil sep rest)
      | cons g gs =>
        rw [if_neg h]
        have : (g :: gs).length = rest.count sep + 1 := hr ▸ ih
        simp only [List.length_cons] at this ⊢
        simp [List.count_cons, h, this]

theorem pySplitCh_of_not_mem (sep : Char) (l : List Char) (h : sep ∉ l) :
    pySplitCh sep l = [l] := by
  induction l with
  | nil => rfl
  | cons c rest ih =>
    have hc : ¬ c = sep := fun e => h (e ▸ List.mem_cons_self c rest)
    rw [pySplitCh, if_neg hc, ih (fun hm => h (List.mem_cons_of_mem c hm))]

theorem pySplitCh_append (sep : Char) (a b : List Char) (ha : sep ∉ a)
    (hb : sep ∉ b) : pySplitCh sep (a ++ sep :: b) = [a, b] := by
  induction a with
  | nil =>
    rw [List.nil_append, pySplitCh, if_pos rfl, pySplitCh_of_not_mem sep b hb]
  | cons c arest ih =>
    have hc : ¬ c = sep := fun e => ha (e ▸ List.mem_cons_self c arest)
    rw [List.cons_append, pySplitCh, if_neg hc,
      ih (fun hm => ha (List.mem_cons_of_mem c hm))]

theorem pySplit_eq_pair {s : String} {sep : Char} {a b : List Char}
    (hs : s.data = a ++ sep :: b) (ha : sep ∉ a) (hb : sep ∉ b) :
    pySplit s sep = [String.mk a, String.mk b] := by
  unfold pySplit
  rw [hs, pySplitCh_append sep a b ha hb]
  rfl

theorem pySplit_of_not_mem {s : String} {sep : Char} (h : sep ∉ s.data) :
    pySplit s sep = [s] := by
  unfold pySplit
  rw [pySplitCh_of_not_mem sep s.data h]
  rfl

theorem pySplit_length (s : String) (sep : Char) :
    (pySplit s sep).length = s.data.count sep + 1 := by
  unfold pySplit
  rw [List.length_map, pySplitCh_length]

/-! ### Lemmas about base64 -/

theorem b64EncChar_spec : ∀ v < 64, b64CharVal (b64EncChar v) = some v ∧
    (b64EncChar v).toNat < 128 ∧ b64EncChar v ≠ ' ' ∧ b64EncChar v ≠ '=' := by
  decide

theorem a2bLoop_cons0 {c : Char} {d : Nat} (hd : b64CharVal c = some d)
    (hne : c ≠ '=') (rest : List Char) (left pads : Nat) (acc : List Nat) :
    a2bLoop (c :: rest) 0 left pads acc = a2bLoop rest 1 d 0 acc := by
  rw [a2bLoop, if_neg hne, hd]

theorem a2bLoop_cons1 {c : Char} {d : Nat} (hd : b64CharVal c = some d)
    (hne : c ≠ '=') (rest : List Char) (left pads : Nat) (acc : List Nat) :
    a2bLoop (c :: rest) 1 left pads acc =
      a2bLoop rest 2 (d % 16) 0 (acc ++ [left * 4 + d / 16]) := by
  rw [a2bLoop, if_neg hne, hd]

theorem a2bLoop_cons2 {c : Char} {d : Nat} (hd : b64CharVal c = some d)
    (hne : c ≠ '=') (rest : List Char) (left pads : Nat) (acc : List Nat) :
    a2bLoop (c :: rest) 2 left pads acc =
      a2bLoop rest 3 (d % 4) 0 (acc ++ [left * 16 + d / 4]) := by
  rw [a2bLoop, if_neg hne, hd]

theorem a2bLoop_cons3 {c : Char} {d : Nat} (hd : b64CharVal c = some d)
    (hne : c ≠ '=') (rest : List Char) (left pads : Nat) (acc : List Nat) :
    a2bLoop (c :: rest) 3 left pads acc =
      a2bLoop rest 0 0 0 (acc ++ [left * 64 + d]) := by
  rw [a2bLoop, if_neg hne, hd]

theorem a2bLoop_pad_done {quad pads : Nat} (h1 : 2 ≤ quad)
    (h2 : 4 ≤ quad + (pads + 1)) (rest : List Char) (left : Nat)
    (acc : List Nat) : a2bLoop ('=' :: rest) quad left pads acc = .ok acc := by
  rw [a2bLoop, if_pos rfl, if_pos ⟨h1, h2⟩]

theorem a2bLoop_pad_skip {quad pads : Nat} (h1 : 2 ≤ quad)
    (h2 : ¬ 4 ≤ quad + (pads + 1)) (rest : List Char) (left : Nat)
    (acc : List Nat) : a2bLoop ('=' :: rest) quad left pads acc =
      a2bLoop rest quad left (pads + 1) acc := by
  rw [a2bLoop, if_pos rfl, if_neg (fun hx => h2 hx.2), if_pos h1]

theorem a2b_encode : ∀ (bs : List Nat), (∀ b ∈ bs, b < 256) →
    ∀ (pads : Nat) (acc : List Nat),
    a2bLoop (b64encodeBytes bs) 0 0 pads acc = .ok (acc ++ bs)
  | [], _, pads, acc => by simp [b64encodeBytes, a2bLoop]
  | [b1], h, pads, acc => by
    have hb1 : b1 < 256 := h b1 (by simp)
    obtain ⟨hd1, _, _, hne1⟩ := b64EncChar_spec (b1 / 4) (by omega)
    obtain ⟨hd2, _, _, hne2⟩ := b64EncChar_spec (b1 % 4 * 16) (by omega)
    rw [b64encodeBytes, a2bLoop_cons0 hd1 hne1, a2bLoop_cons1 hd2 hne2,
      a2bLoop_pad_skip (by omega) (by omega), a2bLoop_pad_done (by omega) (by omega)]
    have e1 : b1 / 4 * 4 + b1 % 4 * 16 / 16 = b1 := by omega
    rw [e1]
  | [b1, b2], h, pads, acc => by
    have hb1 : b1 < 256 := h b1 (by simp)
    have hb2 : b2 < 256 := h b2 (by simp)
    obtain ⟨hd1, _, _, hne1⟩ := b64EncChar_spec (b1 / 4) (by omega)
    obtain ⟨hd2, _, _, hne2⟩ := b64EncChar_spec (b1 % 4 * 16 + b2 / 16) (by omega)
    obtain ⟨hd3, _, _, hne3⟩ := b64EncChar_spec (b2 % 16 * 4) (by omega)
    rw [b64encodeBytes, a2bLoop_cons0 hd1 hne1, a2bLoop_cons1 hd2 hne2,
      a2bLoop_cons2 hd3 hne3, a2bLoop_pad_done (by omega) (by omega)]
    have e1 : b1 / 4 * 4 + (b1 % 4 * 16 + b2 / 16) / 16 = b1 := by omega
    have e2 : (b1 % 4 * 16 + b2 / 16) % 16 * 16 + b2 % 16 * 4 / 4 = b2 := by omega
    rw [e1, e2, List.append_assoc]
    rfl
  | b1 :: b2 :: b3 :: rest, h, pads, acc => by
    have hb1 : b1 < 256 := h b1 (by simp)
    have hb2 : b2 < 256 := h b2 (by simp)
    have hb3 : b3 < 256 := h b3 (by simp)
    obtain ⟨hd1, _, _, hne1⟩ := b64EncChar_spec (b1 / 4) (by omega)
    obtain ⟨hd2, _, _, hne2⟩ := b64EncChar_spec (b1 % 4 * 16 + b2 / 16) (by omega)
    obtain ⟨hd3, _, _, hne3⟩ := b64EncChar_spec (b2 % 16 * 4 + b3 / 64) (by omega)
    obtain ⟨hd4, _, _, hne4⟩ := b64EncChar_spec (b3 % 64) (by omega)
    rw [b64encodeBytes, a2bLoop_cons0 hd1 hne1, a2bLoop_cons1 hd2 hne2,
      a2bLoop_cons2 hd3 hne3, a2bLoop_cons3 hd4 hne4]
    have e1 : b1 / 4 * 4 + (b1 % 4 * 16 + b2 / 16) / 16 = b1 := by omega
    have e2 : (b1 % 4 * 16 + b2 / 16) % 16 * 16 + (b2 % 16 * 4 + b3 / 64) / 4 = b2 := by
      omega
    have e3 : (b2 % 16 * 4 + b3 / 64) % 4 * 64 + b3 % 64 = b3 := by omega
    rw [e1, e2, e3]
    have ih := a2b_encode rest (fun b hb => h b (by simp [hb])) 0
      (acc ++ [b1] ++ [b2] ++ [b3])
    rw [ih]
    simp

theorem b64encodeBytes_mem : ∀ (bs : List Nat), (∀ b ∈ bs, b < 256) →
    ∀ c ∈ b64encodeBytes bs, c = '=' ∨ ∃ v, v < 64 ∧ c = b64EncChar v
  | [], _, c, hc => by simp [b64encodeBytes] at hc
  | [b1], h, c, hc => by
    have hb1 : b1 < 256 := h b1 (by simp)
    rw [b64encodeBytes] at hc
    simp only [List.mem_cons, List.not_mem_nil, or_false] at hc
    rcases hc with hc | hc | hc | hc
    · exact Or.inr ⟨b1 / 4, by omega, hc⟩
    · exact Or.inr ⟨b1 % 4 * 16, by omega, hc⟩
    · exact Or.inl hc
    · exact Or.inl hc
  | [b1, b2], h, c, hc => by
    have hb1 : b1 < 256 := h b1 (by simp)
    have hb2 : b2 < 256 := h b2 (by simp)
    rw [b64encodeBytes] at hc
    simp only [List.mem_cons, List.not_mem_nil, or_false] at hc
    rcases hc with hc | hc | hc | hc
    · exact Or.inr ⟨b1 / 4, by omega, hc⟩
    · exact Or.inr ⟨b1 % 4 * 16 + b2 / 16, by omega, hc⟩
    · exact Or.inr ⟨b2 % 16 * 4, by omega, hc⟩
    · exact Or.inl hc
  | b1 :: b2 :: b3 :: rest, h, c, hc => by
    have hb1 : b1 < 256 := h b1 (by simp)
    have hb2 : b2 < 256 := h b2 (by simp)
    have hb3 : b3 < 256 := h b3 (by simp)
    rw [b64encodeBytes] at hc
    simp only [List.mem_cons] at hc
    rcases hc with hc | hc | hc | hc | hc
    · exact Or.inr ⟨b1 / 4, by omega, hc⟩
    · exact Or.inr ⟨b1 % 4 * 16 + b2 / 16, by omega, hc⟩
    · exact Or.inr ⟨b2 % 16 * 4 + b3 / 64, by omega, hc⟩
    · exact Or.inr ⟨b3 % 64, by omega, hc⟩
    · exact b64encodeBytes_mem rest (fun b hb => h b (by simp [hb])) c hc

theorem b64encodeBytes_ascii (bs : List Nat) (hbs : ∀ b ∈ bs, b < 256) :
    ∀ c ∈ b64encodeBytes bs, c.toNat < 128 := by
  intro c hc
  rcases b64encodeBytes_mem bs hbs c hc with he | ⟨v, hv, he⟩
  · rw [he]; decide
  · rw [he]; exact (b64EncChar_spec v hv).2.1

theorem b64encodeBytes_no_space (bs : List Nat) (hbs : ∀ b ∈ bs, b < 256) :
    ' ' ∉ b64encodeBytes bs := by
  intro hc
  rcases b64encodeBytes_mem bs hbs ' ' hc with he | ⟨v, hv, he⟩
  · exact absurd he (by decide)
  · exact (b64EncChar_spec v hv).2.2.1 he.symm

theorem standard_b64decode_encode (bs : List Nat) (hbs : ∀ b ∈ bs, b < 256) :
    standard_b64decode (b64encode bs) = .ok bs := by
  unfold standard_b64decode b64encode
  rw [if_pos ?_]
  · have := a2b_encode bs hbs 0 []
    simpa using this
  · simp only [List.all_eq_true, decide_eq_true_eq]
    exact b64encodeBytes_ascii bs hbs

theorem a2bLoop_error (chars : List Char) : ∀ (quad left pads : Nat)
    (acc : List Nat) (e : PyError),
    a2bLoop chars quad left pads acc = .error e → e = .binasciiError := by
  induction chars with
  | nil =>
    intro quad left pads acc e h
    rw [a2bLoop] at h
    split at h
    · exact absurd h (by simp)
    · exact (Except.error.inj h).symm
  | cons c rest ih =>
    intro quad left pads acc e h
    rw [a2bLoop] at h
    split at h
    · split at h
      · exact absurd h (by simp)
      · split at h
        · exact ih _ _ _ _ _ h
        · exact ih _ _ _ _ _ h
    · split at h
      · exact ih _ _ _ _ _ h
      · split at h
        · exact ih _ _ _ _ _ h
        · exact ih _ _ _ _ _ h
        · exact ih _ _ _ _ _ h
        · exact ih _ _ _ _ _ h

theorem standard_b64decode_error (s : String) (e : PyError)
    (h : standard_b64decode s = .error e) : e.isValueError = true := by
  unfold standard_b64decode at h
  split at h
  · rw [a2bLoop_error _ _ _ _ _ _ h]
    rfl
  · rw [(Except.error.inj h).symm]
    rfl

/-! ### Lemmas about UTF-8 -/

theorem char_toNat_valid (c : Char) :
    c.toNat < 55296 ∨ (57343 < c.toNat ∧ c.toNat < 1114112) := c.valid

theorem utf8EncodeChar_lt (c : Char) : ∀ b ∈ utf8EncodeChar c, b < 256 := by
  have hv := char_toNat_valid c
  intro b hb
  simp only [utf8EncodeChar] at hb
  split at hb
  · simp only [List.mem_cons, List.not_mem_nil, or_false] at hb
    omega
  · split at hb
    · simp only [List.mem_cons, List.not_mem_nil, or_false] at hb
      rcases hb with hb | hb <;> omega
    · split at hb
      · simp only [List.mem_cons, List.not_mem_nil, or_false] at hb
        rcases hb with hb | hb | hb <;> omega
      · simp only [List.mem_cons, List.not_mem_nil, or_false] at hb
        rcases hb with hb | hb | hb | hb <;> omega

theorem utf8Encode_lt (s : String) : ∀ b ∈ utf8Encode s, b < 256 := by
  intro b hb
  simp only [utf8Encode, List.mem_flatten, List.mem_map] at hb
  obtain ⟨l, ⟨c, _, hl⟩, hbl⟩ := hb
  exact utf8EncodeChar_lt c b (hl ▸ hbl)

theorem utf8Run_cont {b lo hi : Nat} (h : lo ≤ b ∧ b ≤ hi) (need val : Nat)
    (rest : List Nat) (acc : List Char) :
    utf8Run (b :: rest) (need + 2) val lo hi acc =
      utf8Run rest (need + 1) (val * 64 + (b - 0x80)) 0x80 0xBF acc := by
  rw [utf8Run, if_pos h]

theorem utf8Run_last {b lo hi : Nat} (h : lo ≤ b ∧ b ≤ hi) (val : Nat)
    (rest : List Nat) (acc : List Char) :
    utf8Run (b :: rest) 1 val lo hi acc =
      utf8Run rest 0 0 0 0 (Char.ofNat (val * 64 + (b - 0x80)) :: acc) := by
  rw [utf8Run, if_pos h]

theorem utf8Run_encodeChar (c : Char) (bs : List Nat) (acc : List Char) :
    utf8Run (utf8EncodeChar c ++ bs) 0 0 0 0 acc =
      utf8Run bs 0 0 0 0 (c :: acc) := by
  have hv := char_toNat_valid c
  have hofNat := Char.ofNat_toNat c
  by_cases h1 : c.toNat < 0x80
  · have e1 : utf8EncodeChar c = [c.toNat] := by
      simp only [utf8EncodeChar]
      rw [if_pos h1]
    rw [e1, List.cons_append, List.nil_append, utf8Run, if_pos h1, hofNat]
  · by_cases h2 : c.toNat < 0x800
    · have e1 : utf8EncodeChar c = [0xC0 + c.toNat / 64, 0x80 + c.toNat % 64] := by
        simp only [utf8EncodeChar]
        rw [if_neg h1, if_pos h2]
      have g1 : ¬ 0xC0 + c.toNat / 64 < 0x80 := by omega
      have g2 : ¬ 0xC0 + c.toNat / 64 < 0xC2 := by omega
      have g3 : 0xC0 + c.toNat / 64 < 0xE0 := by omega
      rw [e1, List.cons_append, List.cons_append, List.nil_append, utf8Run,
        if_neg g1, if_neg g2, if_pos g3, utf8Run_last ⟨by omega, by omega⟩]
      have ex : (0xC0 + c.toNat / 64 - 0xC0) * 64 + (0x80 + c.toNat % 64 - 0x80)
          = c.toNat := by omega
      rw [ex, hofNat]
    · by_cases h3 : c.toNat < 0x10000
      · have e1 : utf8EncodeChar c = [0xE0 + c.toNat / 4096,
            0x80 + c.toNat / 64 % 64, 0x80 + c.toNat % 64] := by
          simp only [utf8EncodeChar]
          rw [if_neg h1, if_neg h2, if_pos h3]
        rw [e1, List.cons_append, List.cons_append, List.cons_append,
          List.nil_append]
        have g1 : ¬ 0xE0 + c.toNat / 4096 < 0x80 := by omega
        have g2 : ¬ 0xE0 + c.toNat / 4096 < 0xC2 := by omega
        have g3 : ¬ 0xE0 + c.toNat / 4096 < 0xE0 := by omega
        by_cases hE0 : c.toNat / 4096 = 0
        · have g4 : 0xE0 + c.toNat / 4096 = 0xE0 := by omega
          rw [utf8Run, if_neg g1, if_neg g2, if_neg g3, if_pos g4,
            utf8Run_cont ⟨by omega, by omega⟩ 0,
            utf8Run_last ⟨by omega, by omega⟩]
          have ex : (0 * 64 + (0x80 + c.toNat / 64 % 64 - 0x80)) * 64 +
              (0x80 + c.toNat % 64 - 0x80) = c.toNat := by omega
          rw [ex, hofNat]
        · have g4 : ¬ 0xE0 + c.toNat / 4096 = 0xE0 := by omega
          by_cases hED : c.toNat / 4096 = 13
          · have g5 : 0xE0 + c.toNat / 4096 = 0xED := by omega
            rw [utf8Run, if_neg g1, if_neg g2, if_neg g3, if_neg g4, if_pos g5,
              utf8Run_cont ⟨by omega, by omega⟩ 0,
              utf8Run_last ⟨by omega, by omega⟩]
            have ex : (13 * 64 + (0x80 + c.toNat / 64 % 64 - 0x80)) * 64 +
                (0x80 + c.toNat % 64 - 0x80) = c.toNat := by omega
            rw [ex, hofNat]
          · have g5 : ¬ 0xE0 + c.toNat / 4096 = 0xED := by omega
            have g6 : 0xE0 + c.toNat / 4096 < 0xF0 := by omega
            rw [utf8Run, if_neg g1, if_neg g2, if_neg g3, if_neg g4, if_neg g5,
              if_pos g6, utf8Run_cont ⟨by omega, by omega⟩ 0,
              utf8Run_last ⟨by omega, by omega⟩]
            have ex : ((0xE0 + c.toNat / 4096 - 0xE0) * 64 +
                (0x80 + c.toNat / 64 % 64 - 0x80)) * 64 +
                (0x80 + c.toNat % 64 - 0x80) = c.toNat := by omega
            rw [ex, hofNat]
      · have e1 : utf8EncodeChar c = [0xF0 + c.toNat / 0x40000,
            0x80 + c.toNat / 4096 % 64, 0x80 + c.toNat / 64 % 64,
            0x80 + c.toNat % 64] := by
          simp only [utf8EncodeChar]
          rw [if_neg h1, if_neg h2, if_neg h3]
        rw [e1, List.cons_append, List.cons_append, List.cons_append,
          List.cons_append, List.nil_append]
        have g1 : ¬ 0xF0 + c.toNat / 0x40000 < 0x80 := by omega
        have g2 : ¬ 0xF0 + c.toNat / 0x40000 < 0xC2 := by omega
        have g3 : ¬ 0xF0 + c.toNat / 0x40000 < 0xE0 := by omega
        have g4 : ¬ 0xF0 + c.toNat / 0x40000 = 0xE0 := by omega
        have g5 : ¬ 0xF0 + c.toNat / 0x40000 = 0xED := by omega
        have g6 : ¬ 0xF0 + c.toNat / 0x40000 < 0xF0 := by omega
        by_cases hF0 : c.toNat / 0x40000 = 0
        · have g7 : 0xF0 + c.toNat / 0x40000 = 0xF0 := by omega
          rw [utf8Run, if_neg g1, if_neg g2, if_neg g3, if_neg g4, if_neg g5,
            if_neg g6, if_pos g7, utf8Run_cont ⟨by omega, by omega⟩ 1,
            utf8Run_cont ⟨by omega, by omega⟩ 0,
            utf8Run_last ⟨by omega, by omega⟩]
          have ex : ((0 * 64 + (0x80 + c.toNat / 4096 % 64 - 0x80)) * 64 +
              (0x80 + c.toNat / 64 % 64 - 0x80)) * 64 +
              (0x80 + c.toNat % 64 - 0x80) = c.toNat := by omega
          rw [ex, hofNat]
        · have g7 : ¬ 0xF0 + c.toNat / 0x40000 = 0xF0 := by omega
          by_cases hF4 : c.toNat / 0x40000 = 4
          · have g8 : 0xF0 + c.toNat / 0x40000 = 0xF4 := by omega
            rw [utf8Run, if_neg g1, if_neg g2, if_neg g3, if_neg g4, if_neg g5,
              if_neg g6, if_neg g7, if_pos g8,
              utf8Run_cont ⟨by omega, by omega⟩ 1,
              utf8Run_cont ⟨by omega, by omega⟩ 0,
              utf8Run_last ⟨by omega, by omega⟩]
            have ex : ((4 * 64 + (0x80 + c.toNat / 4096 % 64 - 0x80)) * 64 +
                (0x80 + c.toNat / 64 % 64 - 0x80)) * 64 +
                (0x80 + c.toNat % 64 - 0x80) = c.toNat := by omega
            rw [ex, hofNat]
          · have g8 : ¬ 0xF0 + c.toNat / 0x40000 = 0xF4 := by omega
            have g9 : 0xF0 + c.toNat / 0x40000 < 0xF4 := by omega
            rw [utf8Run, if_neg g1, if_neg g2, if_neg g3, if_neg g4, if_neg g5,
              if_neg g6, if_neg g7, if_neg g8, if_pos g9,
              utf8Run_cont ⟨by omega, by omega⟩ 1,
              utf8Run_cont ⟨by omega, by omega⟩ 0,
              utf8Run_last ⟨by omega, by omega⟩]
            have ex : (((0xF0 + c.toNat / 0x40000 - 0xF0) * 64 +
                (0x80 + c.toNat / 4096 % 64 - 0x80)) * 64 +
                (0x80 + c.toNat / 64 % 64 - 0x80)) * 64 +
                (0x80 + c.toNat % 64 - 0x80) = c.toNat := by omega
            rw [ex, hofNat]

theorem utf8Run_encode (cs : List Char) : ∀ acc : List Char,
    utf8Run ((cs.map utf8EncodeChar).flatten) 0 0 0 0 acc =
      some (acc.reverse ++ cs) := by
  induction cs with
  | nil =>
    intro acc
    simp [utf8Run]
  | cons c rest ih =>
    intro acc
    rw [List.map_cons, List.flatten_cons, utf8Run_encodeChar, ih (c :: acc)]
    simp

theorem utf8Decode_encode (s : String) : utf8Decode (utf8Encode s) = some s := by
  unfold utf8Decode utf8Encode
  rw [utf8Run_encode s.data []]
  rfl

/-! ### Exception behaviour of the Basic-header strategy -/

theorem basicTryBody_error (clients : List Client) (auth : String) (e : PyError)
    (h : basicTryBody clients auth = .error e) : e.isValueError = true := by
  unfold basicTryBody at h
  split at h
  · split at h
    · rename_i heq
      rw [(Except.error.inj h).symm]
      exact standard_b64decode_error _ _ heq
    · split at h
      · exact absurd h (by simp)
      · split at h
        · exact absurd h (by simp)
        · rw [(Except.error.inj h).symm]
          rfl
  · rw [(Except.error.inj h).symm]
    rfl

theorem basic_authenticate_no_raise (clients : List Client) (req : Request) :
    ∃ o, BasicClientBackend.authenticate clients (some req) = .ok o := by
  cases hA : dictGet req.META "HTTP_AUTHORIZATION" with
  | none => exact ⟨none, by simp [BasicClientBackend.authenticate, hA]⟩
  | some auth =>
    by_cases hE : auth = ""
    · exact ⟨none, by simp [BasicClientBackend.authenticate, hA, hE]⟩
    · cases hB : basicTryBody clients auth with
      | ok r => exact ⟨r, by simp [BasicClientBackend.authenticate, hA, hE, hB]⟩
      | error e =>
        exact ⟨none, by
          simp [BasicClientBackend.authenticate, hA, hE, hB,
            basicTryBody_error _ _ _ hB]⟩

/-! ### Shared evaluation helpers -/

theorem basic_authenticate_eval (clients : List Client) (req : Request)
    (auth : String) (hA : dictGet req.META "HTTP_AUTHORIZATION" = some auth)
    (hE : ¬ auth = "") :
    BasicClientBackend.authenticate clients (some req) =
      match basicTryBody clients auth with
      | .ok r => .ok r
      | .error e => if e.isValueError then .ok none else .error e := by
  simp only [BasicClientBackend.authenticate, hA, if_neg hE]

theorem append_sep_data (a b : String) (sep : Char) (s : String)
    (hs : s.data = [sep]) : (a ++ s ++ b).data = a.data ++ sep :: b.data := by
  rw [String.data_append, String.data_append, hs, List.append_assoc,
    List.singleton_append]

theorem append_sep_ne_empty (a b : String) (sep : Char) (s : String)
    (hs : s.data = [sep]) : ¬ (a ++ s ++ b) = "" := by
  intro h
  have h2 := congrArg String.data h
  rw [append_sep_data a b sep s hs] at h2
  exact absurd h2 (by simp)

/-! ### The claims -/

/-- Claim C1, counterexample: with client abc registered, a header whose
scheme token is `xBasic` (not the case-sensitive `Basic`) still
authenticates the client, so the strategy does not return none for every
non-`Basic` scheme. -/
theorem basic_scheme_counterexample :
    ("xBasic" : String) ≠ "Basic" ∧
    BasicClientBackend.authenticate [⟨"abc", "s3cr3t", ClientType.confidential⟩]
        (some ⟨[("HTTP_AUTHORIZATION", "xBasic YWJjOnMzY3IzdA==")], []⟩) =
      .ok (some ⟨"abc", "s3cr3t", ClientType.confidential⟩) :=
  ⟨by decide, by decide⟩

/-- Claim C1, amended: `BasicClientBackend.authenticate` never inspects
the scheme token preceding the space: for any two space-free scheme
tokens followed by the same payload, the results coincide, so a
non-`Basic` scheme is processed exactly like `Basic`. -/
theorem basic_scheme_ignored (clients : List Client) (s₁ s₂ payload : String)
    (params : List (String × String)) (h1 : ' ' ∉ s₁.data)
    (h2 : ' ' ∉ s₂.data) (hp : ' ' ∉ payload.data) :
    BasicClientBackend.authenticate clients
        (some ⟨[("HTTP_AUTHORIZATION", s₁ ++ " " ++ payload)], params⟩) =
      BasicClientBackend.authenticate clients
        (some ⟨[("HTTP_AUTHORIZATION", s₂ ++ " " ++ payload)], params⟩) := by
  rw [basic_authenticate_eval clients
      ⟨[("HTTP_AUTHORIZATION", s₁ ++ " " ++ payload)], params⟩
      (s₁ ++ " " ++ payload) rfl (append_sep_ne_empty s₁ payload ' ' " " rfl),
    basic_authenticate_eval clients
      ⟨[("HTTP_AUTHORIZATION", s₂ ++ " " ++ payload)], params⟩
      (s₂ ++ " " ++ payload) rfl (append_sep_ne_empty s₂ payload ' ' " " rfl)]
  have e1 : basicTryBody clients (s₁ ++ " " ++ payload) =
      basicTryBody clients (s₂ ++ " " ++ payload) := by
    unfold basicTryBody
    rw [pySplit_eq_pair (append_sep_data s₁ payload ' ' " " rfl) h1 hp,
      pySplit_eq_pair (append_sep_data s₂ payload ' ' " " rfl) h2 hp]
  rw [e1]

/-- Claim C1, witness for the amended theorem: the scheme tokens `xBasic`
and `Basic` with the payload of the concrete scenario give equal results. -/
theorem basic_scheme_ignored_witness :
    BasicClientBackend.authenticate [⟨"abc", "s3cr3t", ClientType.confidential⟩]
        (some ⟨[("HTTP_AUTHORIZATION", "xBasic" ++ " " ++ "YWJjOnMzY3IzdA==")], []⟩) =
      BasicClientBackend.authenticate [⟨"abc", "s3cr3t", ClientType.confidential⟩]
        (some ⟨[("HTTP_AUTHORIZATION", "Basic" ++ " " ++ "YWJjOnMzY3IzdA==")], []⟩) :=
  basic_scheme_ignored [⟨"abc", "s3cr3t", ClientType.confidential⟩] "xBasic"
    "Basic" "YWJjOnMzY3IzdA==" [] (by decide) (by decide) (by decide)

/-- Claim C2, counterexample: `BasicClientBackend.authenticate` with a
missing request does not return none: it dereferences the missing request
and raises `AttributeError`. -/
theorem basic_missing_request_error :
    BasicClientBackend.authenticate [] none = .error .attributeError ∧
    BasicClientBackend.authenticate [] none ≠ .ok none :=
  ⟨rfl, by decide⟩

/-- Claim C2, amended: the request-parameter and public-password-grant
strategies return none immediately for a missing request; the
Basic-header strategy instead raises `AttributeError` (it reads
`request.META` without a guard). -/
theorem missing_request_behavior (clients : List Client) :
    RequestParamsClientBackend.authenticate clients none = none ∧
    PublicPasswordBackend.authenticate clients none = none ∧
    BasicClientBackend.authenticate clients none = .error .attributeError :=
  ⟨rfl, rfl, rfl⟩

/-- Claim C3: the Access Token Validator returns a record exactly when the
store holds a record whose token string equals the presented token, whose
client equals the given client and whose expiry is strictly greater than
the clock value; any record it returns satisfies those three conditions,
and in every other case the result is none (no distinct expired versus
nonexistent outcome). -/
theorem access_token_authenticate_spec (tokens : List AccessToken) (now : Int)
    (t : String) (c : Client) :
    ((AccessTokenBackend.authenticate tokens now t c).isSome ↔
      ∃ a ∈ tokens, a.token = t ∧ a.client = c ∧ now < a.expires) ∧
    (∀ a, AccessTokenBackend.authenticate tokens now t c = some a →
      a ∈ tokens ∧ a.token = t ∧ a.client = c ∧ now < a.expires) := by
  constructor
  · rw [AccessTokenBackend.authenticate, List.find?_isSome]
    constructor
    · rintro ⟨a, ha, hp⟩
      rw [decide_eq_true_eq] at hp
      exact ⟨a, ha, hp.1, hp.2.2, hp.2.1⟩
    · rintro ⟨a, ha, h1, h2, h3⟩
      exact ⟨a, ha, by rw [decide_eq_true_eq]; exact ⟨h1, h3, h2⟩⟩
  · intro a ha
    rw [AccessTokenBackend.authenticate] at ha
    have hm := List.mem_of_find?_eq_some ha
    have hp := List.find?_some ha
    rw [decide_eq_true_eq] at hp
    exact ⟨hm, hp.1, hp.2.2, hp.2.1⟩

/-- Claim C3, witness: a concrete store with one unexpired record for
client abc; the validator returns it, and its expiry exceeds the clock. -/
theorem access_token_authenticate_spec_witness :
    AccessTokenBackend.authenticate
        [⟨"tok1", ⟨"abc", "s3cr3t", ClientType.confidential⟩, 100⟩] 5 "tok1"
        ⟨"abc", "s3cr3t", ClientType.confidential⟩ =
      some ⟨"tok1", ⟨"abc", "s3cr3t", ClientType.confidential⟩, 100⟩ ∧
    (5 : Int) < 100 := by
  refine ⟨rfl, ?_⟩
  have h := (access_token_authenticate_spec
    [⟨"tok1", ⟨"abc", "s3cr3t", ClientType.confidential⟩, 100⟩] 5 "tok1"
    ⟨"abc", "s3cr3t", ClientType.confidential⟩).2
    ⟨"tok1", ⟨"abc", "s3cr3t", ClientType.confidential⟩, 100⟩ rfl
  exact h.2.2.2

/-- Claim C4, counterexample: with client a registered whose secret is
`b:c`, the header carrying base64 of `a:b:c` returns none, not the client
that a first-colon split would validate. -/
theorem basic_multi_colon_counterexample :
    BasicClientBackend.authenticate [⟨"a", "b:c", ClientType.confidential⟩]
        (some ⟨[("HTTP_AUTHORIZATION", "Basic YTpiOmM=")], []⟩) = .ok none ∧
    BasicClientBackend.authenticate [⟨"a", "b:c", ClientType.confidential⟩]
        (some ⟨[("HTTP_AUTHORIZATION", "Basic YTpiOmM=")], []⟩) ≠
      .ok (some ⟨"a", "b:c", ClientType.confidential⟩) :=
  ⟨by decide, by decide⟩

/-- Claim C4, amended: the decoded text is split at every `:`, not at the
first: the strategy proceeds only when the split has exactly two pieces
(exactly one colon); with no colon or with more than one colon the
unpacking `ValueError` is absorbed and none is returned, and with exactly
one colon the two pieces are validated as client_id and client_secret. -/
theorem basic_colon_split_exact (clients : List Client) (req : Request)
    (auth scheme payload text : String)
    (hA : dictGet req.META "HTTP_AUTHORIZATION" = some auth)
    (hE : ¬ auth = "") (hs : pySplit auth ' ' = [scheme, payload])
    (bytes : List Nat) (hb : standard_b64decode payload = .ok bytes)
    (ht : utf8Decode bytes = some text) :
    ((pySplit text ':').length ≠ 2 →
      BasicClientBackend.authenticate clients (some req) = .ok none) ∧
    (∀ cid secret, pySplit text ':' = [cid, secret] →
      BasicClientBackend.authenticate clients (some req) =
        .ok (ClientAuthForm clients
          [("client_id", cid), ("client_secret", secret)])) := by
  rw [basic_authenticate_eval clients req auth hA hE]
  have hbody : basicTryBody clients auth =
      match pySplit text ':' with
      | [cid, secret] => .ok (ClientAuthForm clients
          [("client_id", cid), ("client_secret", secret)])
      | _ => .error .valueError := by
    unfold basicTryBody
    simp only [hs, hb, ht]
  rw [hbody]
  constructor
  · intro hlen
    cases hcolon : pySplit text ':' with
    | nil => rfl
    | cons a l =>
      cases l with
      | nil => rfl
      | cons b l2 =>
        cases l2 with
        | nil =>
          exact absurd (show (pySplit text ':').length = 2 by rw [hcolon]; rfl) hlen
        | cons c2 l3 => rfl
  · intro cid secret hpair
    simp only [hpair]

/-- Claim C4, witness for the amended theorem: the decoded text `a:b:c`
has two colons, so the result is none. -/
theorem basic_colon_split_exact_witness :
    BasicClientBackend.authenticate []
        (some ⟨[("HTTP_AUTHORIZATION", "Basic YTpiOmM=")], []⟩) = .ok none :=
  (basic_colon_split_exact [] ⟨[("HTTP_AUTHORIZATION", "Basic YTpiOmM=")], []⟩
    "Basic YTpiOmM=" "Basic" "YTpiOmM=" "a:b:c" rfl (by decide) (by decide)
    [97, 58, 98, 58, 99] (by decide) (by decide)).1 (by decide)

/-- Claim C5: the Basic-header strategy raises nothing to the caller for
any present request, and returns none whenever the payload is not valid
base64, or its bytes are not valid UTF-8, or the decoded text lacks a
colon separator. -/
theorem basic_malformed_absorbed (clients : List Client) (req : Request) :
    (∃ o, BasicClientBackend.authenticate clients (some req) = .ok o) ∧
    (∀ auth scheme payload,
      dictGet req.META "HTTP_AUTHORIZATION" = some auth → ¬ auth = "" →
      pySplit auth ' ' = [scheme, payload] →
      (∀ e, standard_b64decode payload = .error e →
        BasicClientBackend.authenticate clients (some req) = .ok none) ∧
      (∀ bytes, standard_b64decode payload = .ok bytes →
        utf8Decode bytes = none →
        BasicClientBackend.authenticate clients (some req) = .ok none) ∧
      (∀ bytes text, standard_b64decode payload = .ok bytes →
        utf8Decode bytes = some text → ':' ∉ text.data →
        BasicClientBackend.authenticate clients (some req) = .ok none)) := by
  refine ⟨basic_authenticate_no_raise clients req, ?_⟩
  intro auth scheme payload hA hE hs
  refine ⟨?_, ?_, ?_⟩
  · intro e he
    have hbody : basicTryBody clients auth = .error e := by
      unfold basicTryBody
      simp only [hs, he]
    simp [basic_authenticate_eval clients req auth hA hE, hbody,
      standard_b64decode_error payload e he]
  · intro bytes hb hu
    have hbody : basicTryBody clients auth = .ok none := by
      unfold basicTryBody
      simp only [hs, hb, hu]
    simp [basic_authenticate_eval clients req auth hA hE, hbody]
  · intro bytes text hb ht hc
    have hbody : basicTryBody clients auth = .error .valueError := by
      unfold basicTryBody
      simp only [hs, hb, ht, pySplit_of_not_mem hc]
    simp [basic_authenticate_eval clients req auth hA hE, hbody,
      PyError.isValueError]

/-- Claim C5, witness: the spec scenario header `Basic !!!notb64` is
absorbed to none through the base64 failure branch. -/
theorem basic_malformed_absorbed_witness :
    BasicClientBackend.authenticate [⟨"abc", "s3cr3t", ClientType.confidential⟩]
        (some ⟨[("HTTP_AUTHORIZATION", "Basic !!!notb64")], []⟩) = .ok none :=
  ((basic_malformed_absorbed [⟨"abc", "s3cr3t", ClientType.confidential⟩]
      ⟨[("HTTP_AUTHORIZATION", "Basic !!!notb64")], []⟩).2
    "Basic !!!notb64" "Basic" "!!!notb64" rfl (by decide) (by decide)).1
    .binasciiError (by decide)

/-- Claim C6: over any store whose registered clients carry non-empty
identifiers, the public-password-grant strategy returns a client exactly
when the grant_type parameter equals password, a client_id parameter is
present, the store holds that client, and its type is exactly public; in
particular a confidential client is rejected and no secret is compared. -/
theorem public_password_grant_spec (clients : List Client) (req : Request)
    (hid : ∀ c ∈ clients, ¬ c.client_id = "") (c : Client) :
    PublicPasswordBackend.authenticate clients (some req) = some c ↔
      (dictGet req.REQUEST "grant_type" = some "password" ∧
        ∃ cid, dictGet req.REQUEST "client_id" = some cid ∧
          find_client clients cid = some c ∧
          c.client_type = ClientType.public) := by
  show PublicPasswordGrantForm clients req.REQUEST = some c ↔ _
  unfold PublicPasswordGrantForm
  by_cases hg : dictGet req.REQUEST "grant_type" = some "password"
  · rw [if_pos hg]
    simp only [hg, true_and]
    cases hcid : dictGet req.REQUEST "client_id" with
    | none => simp
    | some cid =>
      dsimp only
      by_cases hcemp : cid = ""
      · rw [if_pos hcemp]
        constructor
        · intro h
          exact absurd h (by simp)
        · rintro ⟨cid2, hcid2, hfc, _⟩
          rw [Option.some.injEq] at hcid2
          rw [← hcid2, hcemp] at hfc
          unfold find_client at hfc
          have hmem := List.mem_of_find?_eq_some hfc
          have hpred := List.find?_some hfc
          rw [beq_iff_eq] at hpred
          exact absurd hpred (hid c hmem)
      · rw [if_neg hcemp]
        cases hfc : find_client clients cid with
        | none =>
          constructor
          · intro h
            exact absurd h (by simp)
          · rintro ⟨cid2, hcid2, hfc2, _⟩
            rw [Option.some.injEq] at hcid2
            rw [← hcid2, hfc] at hfc2
            exact absurd hfc2 (by simp)
        | some c0 =>
          dsimp only
          by_cases hty : c0.client_type = ClientType.public
          · rw [if_pos hty]
            constructor
            · intro h
              rw [Option.some.injEq] at h
              exact ⟨cid, rfl, by rw [hfc, h], by rw [← h]; exact hty⟩
            · rintro ⟨cid2, hcid2, hfc2, _⟩
              rw [Option.some.injEq] at hcid2
              rw [← hcid2, hfc, Option.some.injEq] at hfc2
              rw [hfc2]
          · rw [if_neg hty]
            constructor
            · intro h
              exact absurd h (by simp)
            · rintro ⟨cid2, hcid2, hfc2, hty2⟩
              rw [Option.some.injEq] at hcid2
              rw [← hcid2, hfc, Option.some.injEq] at hfc2
              rw [← hfc2] at hty2
              exact absurd hty2 hty
  · rw [if_neg hg]
    simp [hg]

/-- Claim C6, witness: the spec scenario public client pub1 with the
password-grant parameter set is returned. -/
theorem public_password_grant_spec_witness :
    PublicPasswordBackend.authenticate [⟨"pub1", "", ClientType.public⟩]
        (some ⟨[], [("grant_type", "password"), ("client_id", "pub1"),
          ("username", "u"), ("password", "p")]⟩) =
      some ⟨"pub1", "", ClientType.public⟩ :=
  (public_password_grant_spec [⟨"pub1", "", ClientType.public⟩]
      ⟨[], [("grant_type", "password"), ("client_id", "pub1"),
        ("username", "u"), ("password", "p")]⟩ (by decide)
      ⟨"pub1", "", ClientType.public⟩).mpr
    ⟨rfl, "pub1", rfl, rfl, rfl⟩

/-- Claim C7: for every well-formed header `Basic base64(id:secret)` - id
registered, secret equal to the stored secret, id non-empty (section 3
invariant) and id and secret colon-free (section 4.1 well-formedness) -
the Basic-header strategy returns that client. -/
theorem basic_valid_header_authenticates (clients : List Client)
    (id secret : String) (c : Client) (params : List (String × String))
    (hfc : find_client clients id = some c) (hsec : c.client_secret = secret)
    (hid : ¬ id = "") (hci : ':' ∉ id.data) (hcs : ':' ∉ secret.data) :
    BasicClientBackend.authenticate clients
      (some ⟨[("HTTP_AUTHORIZATION",
        "Basic " ++ b64encode (utf8Encode (id ++ ":" ++ secret)))], params⟩) =
      .ok (some c) := by
  have hbytes : ∀ b ∈ utf8Encode (id ++ ":" ++ secret), b < 256 :=
    utf8Encode_lt (id ++ ":" ++ secret)
  have hdata : ("Basic " ++ b64encode (utf8Encode (id ++ ":" ++ secret))).data
      = "Basic".data ++ ' ' ::
        b64encodeBytes (utf8Encode (id ++ ":" ++ secret)) := by
    rw [String.data_append]
    have hb : ("Basic " : String).data = "Basic".data ++ [' '] := rfl
    rw [hb, List.append_assoc, List.singleton_append]
    rfl
  have hE : ¬ ("Basic " ++ b64encode (utf8Encode (id ++ ":" ++ secret))) = "" := by
    intro h
    have h2 := congrArg String.data h
    rw [hdata] at h2
    exact absurd h2 (by simp)
  have hsplit : pySplit ("Basic " ++ b64encode (utf8Encode (id ++ ":" ++ secret)))
      ' ' = ["Basic", b64encode (utf8Encode (id ++ ":" ++ secret))] :=
    pySplit_eq_pair hdata (by decide)
      (b64encodeBytes_no_space (utf8Encode (id ++ ":" ++ secret)) hbytes)
  have hdec : standard_b64decode (b64encode (utf8Encode (id ++ ":" ++ secret)))
      = .ok (utf8Encode (id ++ ":" ++ secret)) :=
    standard_b64decode_encode (utf8Encode (id ++ ":" ++ secret)) hbytes
  have hutf : utf8Decode (utf8Encode (id ++ ":" ++ secret))
      = some (id ++ ":" ++ secret) := utf8Decode_encode (id ++ ":" ++ secret)
  have hcolon : pySplit (id ++ ":" ++ secret) ':' = [id, secret] :=
    pySplit_eq_pair (append_sep_data id secret ':' ":" rfl) hci hcs
  have hform : ClientAuthForm clients
      [("client_id", id), ("client_secret", secret)] = some c := by
    unfold ClientAuthForm
    have hg1 : dictGet [("client_id", id), ("client_secret", secret)]
        "client_id" = some id := rfl
    have hg2 : dictGet [("client_id", id), ("client_secret", secret)]
        "client_secret" = some secret := rfl
    simp only [hg1, hg2, if_neg hid, hfc, Option.getD_some, hsec,
      eq_self_iff_true, if_true]
  rw [basic_authenticate_eval clients
      ⟨[("HTTP_AUTHORIZATION",
        "Basic " ++ b64encode (utf8Encode (id ++ ":" ++ secret)))], params⟩
      ("Basic " ++ b64encode (utf8Encode (id ++ ":" ++ secret))) rfl hE]
  have hbody : basicTryBody clients
      ("Basic " ++ b64encode (utf8Encode (id ++ ":" ++ secret)))
      = .ok (some c) := by
    unfold basicTryBody
    simp only [hsplit, hdec, hutf, hcolon, hform]
  rw [hbody]

/-- Claim C7, witness: the concrete scenario - client abc with secret
s3cr3t and the header `Basic YWJjOnMzY3IzdA==` - returns client abc. -/
theorem basic_valid_header_authenticates_witness :
    BasicClientBackend.authenticate [⟨"abc", "s3cr3t", ClientType.confidential⟩]
        (some ⟨[("HTTP_AUTHORIZATION", "Basic YWJjOnMzY3IzdA==")], []⟩) =
      .ok (some ⟨"abc", "s3cr3t", ClientType.confidential⟩) := by
  have h := basic_valid_header_authenticates
    [⟨"abc", "s3cr3t", ClientType.confidential⟩] "abc" "s3cr3t"
    ⟨"abc", "s3cr3t", ClientType.confidential⟩ [] rfl rfl (by decide)
    (by decide) (by decide)
  have e : "Basic " ++ b64encode (utf8Encode ("abc" ++ ":" ++ "s3cr3t"))
      = "Basic YWJjOnMzY3IzdA==" := by decide
  rw [e] at h
  exact h

/-- Claim C8: whenever the merged parameter mapping holds no client_id
key, both parameter-based strategies return none. -/
theorem params_missing_client_id_none (clients : List Client) (req : Request)
    (h : dictGet req.REQUEST "client_id" = none) :
    RequestParamsClientBackend.authenticate clients (some req) = none ∧
    PublicPasswordBackend.authenticate clients (some req) = none := by
  constructor
  · show ClientAuthForm clients req.REQUEST = none
    unfold ClientAuthForm
    simp only [h]
  · show PublicPasswordGrantForm clients req.REQUEST = none
    unfold PublicPasswordGrantForm
    by_cases hg : dictGet req.REQUEST "grant_type" = some "password"
    · rw [if_pos hg]
      simp only [h]
    · rw [if_neg hg]

/-- Claim C8, witness: a parameter mapping with grant_type but no
client_id yields none from both strategies. -/
theorem params_missing_client_id_none_witness :
    RequestParamsClientBackend.authenticate
        [⟨"abc", "s3cr3t", ClientType.confidential⟩]
        (some ⟨[], [("grant_type", "password")]⟩) = none ∧
    PublicPasswordBackend.authenticate
        [⟨"abc", "s3cr3t", ClientType.confidential⟩]
        (some ⟨[], [("grant_type", "password")]⟩) = none :=
  params_missing_client_id_none [⟨"abc", "s3cr3t", ClientType.confidential⟩]
    ⟨[], [("grant_type", "password")]⟩ rfl

/-- Claim C9: the Strategy Chain tries Basic-header, then
request-parameter, then public-password-grant and returns the first
non-none result: when the Basic-header strategy resolves a client the
chain returns it whatever the request-parameter strategy would resolve,
and when all three return none the chain returns none. -/
theorem chain_first_success (clients : List Client) (req : Request) :
    (∀ c₁ c₂, BasicClientBackend.authenticate clients (some req) = .ok (some c₁) →
      RequestParamsClientBackend.authenticate clients (some req) = some c₂ →
      authenticateChain clients req = some c₁) ∧
    (BasicClientBackend.authenticate clients (some req) = .ok none →
      RequestParamsClientBackend.authenticate clients (some req) = none →
      PublicPasswordBackend.authenticate clients (some req) = none →
      authenticateChain clients req = none) := by
  constructor
  · intro c₁ c₂ hb _
    unfold authenticateChain
    simp only [hb]
  · intro hb hpar hpub
    unfold authenticateChain
    simp only [hb, hpar, hpub]

/-- Claim C9, witness: a request whose Basic header resolves client abc
while its parameters resolve the different client xyz; the chain returns
abc. -/
theorem chain_first_success_witness :
    authenticateChain
        [⟨"abc", "s3cr3t", ClientType.confidential⟩,
          ⟨"xyz", "s2", ClientType.confidential⟩]
        ⟨[("HTTP_AUTHORIZATION", "Basic YWJjOnMzY3IzdA==")],
          [("client_id", "xyz"), ("client_secret", "s2")]⟩ =
      some ⟨"abc", "s3cr3t", ClientType.confidential⟩ :=
  (chain_first_success
      [⟨"abc", "s3cr3t", ClientType.confidential⟩,
        ⟨"xyz", "s2", ClientType.confidential⟩]
      ⟨[("HTTP_AUTHORIZATION", "Basic YWJjOnMzY3IzdA==")],
        [("client_id", "xyz"), ("client_secret", "s2")]⟩).1
    ⟨"abc", "s3cr3t", ClientType.confidential⟩
    ⟨"xyz", "s2", ClientType.confidential⟩ (by decide) (by decide)

/-- Claim C10: a present Authorization header that is the empty string is
treated like an absent header (none, no exception), and a present header
that does not contain exactly one space character is absorbed as
malformed (none, no exception). -/
theorem basic_header_shape_none (clients : List Client) (req : Request)
    (auth : String) (hA : dictGet req.META "HTTP_AUTHORIZATION" = some auth) :
    (auth = "" → BasicClientBackend.authenticate clients (some req) = .ok none) ∧
    (auth.data.count ' ' ≠ 1 →
      BasicClientBackend.authenticate clients (some req) = .ok none) := by
  constructor
  · intro hE
    simp [BasicClientBackend.authenticate, hA, hE]
  · intro hcount
    by_cases hE : auth = ""
    · simp [BasicClientBackend.authenticate, hA, hE]
    · have hlen : (pySplit auth ' ').length ≠ 2 := by
        rw [pySplit_length]
        omega
      have hbody : basicTryBody clients auth = .error .valueError := by
        unfold basicTryBody
        cases hsp : pySplit auth ' ' with
        | nil => rfl
        | cons a l =>
          cases l with
          | nil => rfl
          | cons b l2 =>
            cases l2 with
            | nil =>
              exact absurd (show (pySplit auth ' ').length = 2 by
                rw [hsp]; rfl) hlen
            | cons c2 l3 => rfl
      simp [basic_authenticate_eval clients req auth hA hE, hbody,
        PyError.isValueError]

/-- Claim C10, witness: the header `Basic` (no space at all) yields none. -/
theorem basic_header_shape_none_witness :
    BasicClientBackend.authenticate []
        (some ⟨[("HTTP_AUTHORIZATION", "Basic")], []⟩) = .ok none :=
  (basic_header_shape_none [] ⟨[("HTTP_AUTHORIZATION", "Basic")], []⟩
    "Basic" rfl).2 (by decide)
